import Mathlib

/-!
# Caja de Ritmos: step sequencer (i2s/src/main.cpp)

A shallow embedding of the sketch `main.cpp`: the global variables become a
record `State`, one pass of `loop()` becomes a function from the buttons read
in that pass and the state before it to the state after it together with the
list of observable actions (serial lines, display refreshes, delays, audio
writes, DMA flushes).  Array accesses go through bounds-checked accessors and
an access outside `soundSequences[8][16]` makes the pass return `none`.

The header `d_kit.h` (sample tables and their `*_NUM_CELLS` constants) is not
part of the sources, so its contents are a parameter (`DKit`).
-/

namespace CajaDeRitmos

/-! ## Constants (main.cpp lines 22-33) -/

def KICK_SOUND : Nat := 0
def SNARE1_SOUND : Nat := 1
def SNARE2_SOUND : Nat := 2
def CLAP_SOUND : Nat := 3
def SNAP_SOUND : Nat := 4
def CLOSED_HAT_SOUND : Nat := 5
def HI_HAT_TABLE : Nat := 6
def WATER_SOUND : Nat := 7

def numSounds : Nat := 8
def numSteps : Nat := 16

/-! ## Machine integers -/

/-- Two's-complement reading of an integer in `w` bits (the value a signed
`w`-bit variable holds after the integer is stored into it). -/
def wrapInt (w : Nat) (x : Int) : Int :=
  (x + 2 ^ (w - 1)) % 2 ^ w - 2 ^ (w - 1)

/-- Conversion to `int16_t`. -/
def toInt16 (x : Int) : Int := wrapInt 16 x

/-- Conversion to `int` (32 bits on the target). -/
def toInt32 (x : Int) : Int := wrapInt 32 x

/-- The expression `x << k` on an `int` operand. -/
def shl (x : Int) (k : Nat) : Int := toInt32 (x * 2 ^ k)

/-- Conversion to `size_t` (32 bits, unsigned, on the target). -/
def toSize (x : Int) : Nat := (x % 2 ^ 32).toNat

/-! ## The pattern grid `bool soundSequences[numSounds][numSteps]` -/

abbrev Grid := Fin numSounds → Fin numSteps → Bool

/-- An `int` used as an index into an array of `n` elements: `none` when it
falls outside the array. -/
def toIndex (n : Nat) (i : Int) : Option (Fin n) :=
  if h : 0 ≤ i ∧ i < n then some ⟨i.toNat, by omega⟩ else none

/-- The read `soundSequences[r][c]`. -/
def Grid.read (g : Grid) (r c : Int) : Option Bool :=
  match toIndex numSounds r, toIndex numSteps c with
  | some i, some j => some (g i j)
  | _, _ => none

/-- The assignment `soundSequences[r][c] = v`. -/
def Grid.write (g : Grid) (r c : Int) (v : Bool) : Option Grid :=
  match toIndex numSounds r, toIndex numSteps c with
  | some i, some j => some (Function.update g i (Function.update (g i) j v))
  | _, _ => none

/-! ## Global state (main.cpp lines 34-38) -/

structure State where
  soundSequences : Grid
  cursorX : Int
  cursorY : Int
  isRunning : Bool
  currentStep : Int

/-- The globals as initialised at program start. -/
def initialState : State :=
  { soundSequences := fun _ _ => false
    cursorX := 0
    cursorY := 0
    isRunning := false
    currentStep := 0 }

/-! ## Observable actions -/

/-- The sample tables named in `d_kit.h`. -/
inductive Sample where
  | kick9 | snare3 | snare4 | clap2 | snap1 | chihat2 | HIHATTABLE | water1
  deriving DecidableEq

/-- Contents of `d_kit.h`: for each table `X`, the memory seen through the
pointer `X_DATA` (element `i` is `X_DATA[i]`) and the constant `X_NUM_CELLS`. -/
structure DKit where
  DATA : Sample → Nat → Int
  NUM_CELLS : Sample → Int

/-- Lines written to the serial port. -/
inductive Line where
  | movedUp
  | movedDown
  | movedLeft
  | movedRight
  | toggled (sound step : Int) (isOn : Bool)
  | sequencer (started : Bool)
  | sequencerReset
  | playing (sound step : Int)
  | currentStep (step : Int)
  | errorAllocating
  deriving DecidableEq

inductive Event where
  | serial (line : Line)
  | printMatrix
  | delay (ms : Nat)
  /-- The call `playSample(data_DATA, len_NUM_CELLS)` made in the branch of
  lane `sound`. -/
  | playSample (sound : Nat) (data len : Sample)
  /-- The call `i2s_write(I2S_NUM_0, src, size, ..., portMAX_DELAY)`: `src` is
  the buffer handed over, `size` the byte count. -/
  | i2sWrite (src : List Int) (size : Nat)
  /-- The call `i2s_zero_dma_buffer(I2S_NUM_0)`. -/
  | zeroDmaBuffer
  deriving DecidableEq

/-- What the surroundings do during one pass of `loop()`: whether the `malloc`
in the `playSample` call of a lane succeeds, and whether `isRunning` is
cleared while the `playSample` call of a lane is in progress.  The sketch
itself never clears `isRunning` there: `stopDuring := fun _ => false` is the
program as written. -/
structure Env where
  allocOk : Nat → Bool
  stopDuring : Nat → Bool

/-- Levels read from the seven button pins in one pass (`true`: the pin
reads `LOW`, the button is held down). -/
structure Buttons where
  up : Bool
  down : Bool
  left : Bool
  right : Bool
  select : Bool
  startStop : Bool
  reset : Bool

/-- No button held down. -/
def Buttons.none : Buttons :=
  { up := false, down := false, left := false, right := false
    select := false, startStop := false, reset := false }

/-! ## `playSample` (main.cpp lines 226-244) -/

/-- The call `malloc(size)` for a buffer of `int16_t`: `none` is `nullptr`,
otherwise the buffer of `size / 2` elements as handed out. -/
def malloc (ok : Bool) (size : Nat) : Option (List Int) :=
  if ok then some (List.replicate (size / 2) 0) else none

/-- Lines 236-238, the conversion loop: `i2sData[i] = sampleData[i] << 8` for
`i = 0 .. sampleLength - 1`. -/
def convertLoop (sampleData : Nat → Int) (sampleLength : Int) (i2sData : List Int) :
    List Int :=
  (List.range sampleLength.toNat).foldl
    (fun buf i => buf.set i (toInt16 (shl (sampleData i) 8))) i2sData

/-- The function `playSample(sampleData, sampleLength)`; `i2sData` is what
its `malloc(sampleLength * sizeof(int16_t))` returns.  The pointer
`sampleData` is the memory seen through it: `sampleData i` is
`sampleData[i]`. -/
def playSample (i2sData : Option (List Int)) (sampleData : Nat → Int)
    (sampleLength : Int) : List Event :=
  match i2sData with
  | none => [Event.serial Line.errorAllocating]
  | some buf =>
    [Event.i2sWrite (convertLoop sampleData sampleLength buf) (toSize (sampleLength * 2))]

/-! ## `loop` (main.cpp lines 111-195) -/

/-- Lines 112-117: the up button. -/
def loop_up (pressed : Bool) (s : State) : State × List Event :=
  if pressed && decide (s.cursorY > 0) then
    ({ s with cursorY := s.cursorY - 1 },
      [Event.serial Line.movedUp, Event.printMatrix, Event.delay 200])
  else (s, [])

/-- Lines 118-123: the down button. -/
def loop_down (pressed : Bool) (s : State) : State × List Event :=
  if pressed && decide (s.cursorY < (numSounds : Int) - 1) then
    ({ s with cursorY := s.cursorY + 1 },
      [Event.serial Line.movedDown, Event.printMatrix, Event.delay 200])
  else (s, [])

/-- Lines 124-129: the left button. -/
def loop_left (pressed : Bool) (s : State) : State × List Event :=
  if pressed && decide (s.cursorX > 0) then
    ({ s with cursorX := s.cursorX - 1 },
      [Event.serial Line.movedLeft, Event.printMatrix, Event.delay 200])
  else (s, [])

/-- Lines 130-135: the right button. -/
def loop_right (pressed : Bool) (s : State) : State × List Event :=
  if pressed && decide (s.cursorX < (numSteps : Int) - 1) then
    ({ s with cursorX := s.cursorX + 1 },
      [Event.serial Line.movedRight, Event.printMatrix, Event.delay 200])
  else (s, [])

/-- Lines 136-141: the select button toggles the cell under the cursor. -/
def loop_select (pressed : Bool) (s : State) : Option (State × List Event) :=
  if pressed then
    match s.soundSequences.read s.cursorY s.cursorX with
    | none => none
    | some v =>
      match s.soundSequences.write s.cursorY s.cursorX (!v) with
      | none => none
      | some g =>
        match g.read s.cursorY s.cursorX with
        | none => none
        | some isOn =>
          some ({ s with soundSequences := g },
            [Event.serial (Line.toggled s.cursorY s.cursorX isOn), Event.printMatrix,
              Event.delay 200])
  else some (s, [])

/-- Lines 142-146: the start/stop button. -/
def loop_startStop (pressed : Bool) (s : State) : State × List Event :=
  if pressed then
    ({ s with isRunning := !s.isRunning },
      [Event.serial (Line.sequencer (!s.isRunning)), Event.delay 200])
  else (s, [])

/-- Lines 149-151: the inner loop of the reset, over the steps of lane `i`. -/
def resetRow (g : Grid) (i : Nat) : Option Grid :=
  (List.range numSteps).foldlM (fun (g : Grid) (j : Nat) => g.write i j false) g

/-- Lines 148-152: the nested loops of the reset. -/
def resetGrid (g : Grid) : Option Grid :=
  (List.range numSounds).foldlM (fun (g : Grid) (i : Nat) => resetRow g i) g

/-- Lines 147-156: the reset button. -/
def loop_reset (pressed : Bool) (s : State) : Option (State × List Event) :=
  if pressed then
    match resetGrid s.soundSequences with
    | none => none
    | some g =>
      some ({ s with soundSequences := g },
        [Event.serial Line.sequencerReset, Event.printMatrix, Event.delay 200])
  else some (s, [])

/-- Lines 162-178: the table and the length constant passed to `playSample`
in the branch of lane `sound` (`none`: no branch matches). -/
def sampleFor (sound : Nat) : Option (Sample × Sample) :=
  if sound = KICK_SOUND then some (Sample.kick9, Sample.kick9)
  else if sound = SNARE1_SOUND then some (Sample.snare3, Sample.snare3)
  else if sound = SNARE2_SOUND then some (Sample.snare3, Sample.snare4)
  else if sound = CLAP_SOUND then some (Sample.clap2, Sample.clap2)
  else if sound = SNAP_SOUND then some (Sample.snap1, Sample.snap1)
  else if sound = CLOSED_HAT_SOUND then some (Sample.chihat2, Sample.chihat2)
  else if sound = HI_HAT_TABLE then some (Sample.HIHATTABLE, Sample.HIHATTABLE)
  else if sound = WATER_SOUND then some (Sample.water1, Sample.water1)
  else none

/-- Lines 161-178: the serial line and the `playSample` call of an active
lane, with everything that call does. -/
def playLane (kit : DKit) (env : Env) (sound : Nat) (step : Int) : List Event :=
  Event.serial (Line.playing sound step) ::
    match sampleFor sound with
    | some (data, len) =>
      Event.playSample sound data len ::
        playSample (malloc (env.allocOk sound) (toSize (kit.NUM_CELLS len * 2)))
          (kit.DATA data) (kit.NUM_CELLS len)
    | none => []

/-- Value of `isRunning` when the branch of lane `sound` is left: it can
only have changed while a `playSample` call was in progress. -/
def runningAfter (env : Env) (sound : Nat) (isRunning : Bool) : Bool :=
  match sampleFor sound with
  | some _ => isRunning && !env.stopDuring sound
  | none => isRunning

/-- Lines 159-186: the loop over the lanes, entered at lane `sound` with
`remaining = numSounds - sound` iterations left. -/
def soundLoop (kit : DKit) (env : Env) :
    Nat → Nat → State → Option (State × List Event)
  | 0, _, s => some (s, [])
  | remaining + 1, sound, s =>
    match s.soundSequences.read sound s.currentStep with
    | none => none
    | some false => soundLoop kit env remaining (sound + 1) s
    | some true =>
      let played := playLane kit env sound s.currentStep
      let s1 := { s with isRunning := runningAfter env sound s.isRunning }
      if !s1.isRunning then
        some (s1, played ++ [Event.zeroDmaBuffer])
      else
        match soundLoop kit env remaining (sound + 1) s1 with
        | none => none
        | some (s2, t) => some (s2, played ++ t)

/-- Lines 158-194: one tick of the sequencer when running, a flush of the
DMA buffer when not.  The sum `currentStep + 1` cannot overflow: the lane
loop has read `soundSequences[0][currentStep]` before. -/
def tick (kit : DKit) (env : Env) (s : State) : Option (State × List Event) :=
  if s.isRunning then
    match soundLoop kit env numSounds 0 s with
    | none => none
    | some (s1, t) =>
      let s2 := { s1 with currentStep := Int.tmod (s1.currentStep + 1) numSteps }
      some (s2, t ++ [Event.delay 125, Event.serial (Line.currentStep s2.currentStep),
        Event.printMatrix])
  else
    some (s, [Event.zeroDmaBuffer])

/-- One pass of `loop()`. -/
def loop (kit : DKit) (env : Env) (b : Buttons) (s : State) :
    Option (State × List Event) :=
  let (s1, t1) := loop_up b.up s
  let (s2, t2) := loop_down b.down s1
  let (s3, t3) := loop_left b.left s2
  let (s4, t4) := loop_right b.right s3
  match loop_select b.select s4 with
  | none => none
  | some (s5, t5) =>
    let (s6, t6) := loop_startStop b.startStop s5
    match loop_reset b.reset s6 with
    | none => none
    | some (s7, t7) =>
      match tick kit env s7 with
      | none => none
      | some (s8, t8) => some (s8, t1 ++ t2 ++ t3 ++ t4 ++ t5 ++ t6 ++ t7 ++ t8)

/-- Successive passes of `loop()`, one per element of `inputs`. -/
def run (kit : DKit) : List (Env × Buttons) → State → Option (State × List Event)
  | [], s => some (s, [])
  | (env, b) :: rest, s =>
    match loop kit env b s with
    | none => none
    | some (s1, t1) =>
      match run kit rest s1 with
      | none => none
      | some (s2, t2) => some (s2, t1 ++ t2)

/-! ## Reading a trace -/

/-- The lanes for which `playSample` was called, in call order. -/
def dispatched : List Event → List Nat
  | [] => []
  | Event.playSample sound _ _ :: t => sound :: dispatched t
  | _ :: t => dispatched t

/-- Number of calls of `i2s_zero_dma_buffer`. -/
def flushes : List Event → Nat
  | [] => 0
  | Event.zeroDmaBuffer :: t => flushes t + 1
  | _ :: t => flushes t

/-- The steps named in the "Playing sound" lines, in order. -/
def playedSteps : List Event → List Int
  | [] => []
  | Event.serial (Line.playing _ step) :: t => step :: playedSteps t
  | _ :: t => playedSteps t

/-- The buffers handed to `i2s_write`, in order. -/
def written : List Event → List (List Int)
  | [] => []
  | Event.i2sWrite src _ :: t => src :: written t
  | _ :: t => written t

/-- Whether the cell `soundSequences[r][c]` is set. -/
def isActive (g : Grid) (c : Int) (r : Nat) : Bool :=
  g.read r c == some true

/-- The lanes active on step `c` of grid `g`, in ascending order. -/
def activeLanes (g : Grid) (c : Int) : List Nat :=
  (List.range numSounds).filter (isActive g c)

/-- The cursor is on a cell of the grid and the step is a column of it. -/
def InRange (s : State) : Prop :=
  (0 ≤ s.cursorY ∧ s.cursorY < 8) ∧ (0 ≤ s.cursorX ∧ s.cursorX < 16)
    ∧ (0 ≤ s.currentStep ∧ s.currentStep < 16)

/-! ## Sample inputs -/

/-- A grid whose step 2 has lanes 1, 3 and 5 set, and nothing else. -/
def exampleGrid : Grid :=
  fun r c => decide (c.val = 2) && (decide (r.val = 3) || decide (r.val = 1) || decide (r.val = 5))

/-- A running sequencer on step 2 of `exampleGrid`, cursor on row 0, column 15. -/
def exampleState : State :=
  { soundSequences := exampleGrid
    cursorX := 15
    cursorY := 0
    isRunning := true
    currentStep := 2 }

/-- The same sequencer on the last step. -/
def lastStepState : State := { exampleState with currentStep := 15 }

/-- Sample tables of three cells each. -/
def exampleKit : DKit :=
  { DATA := fun _ i => if i = 0 then -1 else 127
    NUM_CELLS := fun _ => 3 }

/-- Every allocation succeeds and nothing stops the sequencer. -/
def quietEnv : Env :=
  { allocOk := fun _ => true
    stopDuring := fun _ => false }

/-- The sequencer is stopped while lane 1 plays. -/
def stopDuringOne : Env :=
  { allocOk := fun _ => true
    stopDuring := fun r => decide (r = 1) }

/-! ## Parts of a pass and more sample inputs -/

/-- Lines 112-156: the button handling of one pass of `loop()`, everything
before the test `if (isRunning)`. -/
def loop_buttons (b : Buttons) (s : State) : Option (State × List Event) :=
  let (s1, t1) := loop_up b.up s
  let (s2, t2) := loop_down b.down s1
  let (s3, t3) := loop_left b.left s2
  let (s4, t4) := loop_right b.right s3
  match loop_select b.select s4 with
  | none => none
  | some (s5, t5) =>
    let (s6, t6) := loop_startStop b.startStop s5
    match loop_reset b.reset s6 with
    | none => none
    | some (s7, t7) => some (s7, t1 ++ t2 ++ t3 ++ t4 ++ t5 ++ t6 ++ t7)

/-- Only the select button held down. -/
def selectOnly : Buttons := { Buttons.none with select := true }

/-- Only the start/stop button held down. -/
def startStopOnly : Buttons := { Buttons.none with startStop := true }

/-- Every allocation succeeds except the one for lane 3; nothing stops the
sequencer. -/
def failingLaneThree : Env :=
  { allocOk := fun r => decide (r ≠ 3)
    stopDuring := fun _ => false }

/-- The initial grid after the cell of lane 0, step 0 has been set. -/
def kickOnFirstStep : Grid :=
  Function.update initialState.soundSequences ⟨0, by decide⟩
    (Function.update (initialState.soundSequences ⟨0, by decide⟩) ⟨0, by decide⟩ true)

/-! ## Machine arithmetic -/

theorem shl8_int8 (v : Int) (hlo : -128 ≤ v) (hhi : v ≤ 127) :
    toInt16 (shl v 8) = v * 256 := by
  simp only [toInt16, shl, toInt32, wrapInt]
  norm_num
  omega

theorem toSize_double (n : Nat) (h : n < 2 ^ 31) : toSize ((n : Int) * 2) = 2 * n := by
  simp only [toSize]
  norm_num at h ⊢
  omega

theorem foldl_set_range (f : Nat → Int) :
    ∀ (m : Nat) (buf : List Int), m ≤ buf.length →
      (List.range m).foldl (fun b i => b.set i (f i)) buf
        = (List.range m).map f ++ buf.drop m := by
  intro m
  induction m with
  | zero => intro buf _; simp
  | succ m ih =>
    intro buf h
    have hm : m < buf.length := by omega
    rw [List.range_succ, List.foldl_append, ih buf (by omega)]
    simp only [List.foldl_cons, List.foldl_nil, List.map_append, List.map_cons, List.map_nil]
    rw [List.set_append]
    simp only [List.length_map, List.length_range, lt_self_iff_false, if_false, Nat.sub_self]
    rw [List.drop_eq_getElem_cons hm, List.set_cons_zero]
    simp

theorem convertLoop_eq (sampleData : Nat → Int) (n : Nat) (buf : List Int)
    (h : buf.length = n) :
    convertLoop sampleData n buf
      = (List.range n).map fun i => toInt16 (shl (sampleData i) 8) := by
  unfold convertLoop
  simp only [Int.toNat_ofNat]
  rw [foldl_set_range _ n buf (by omega)]
  simp [← h]

/-! ## Traces -/

theorem dispatched_append (a b : List Event) :
    dispatched (a ++ b) = dispatched a ++ dispatched b := by
  induction a with
  | nil => rfl
  | cons e a ih => cases e <;> simp [dispatched, ih]

theorem flushes_append (a b : List Event) : flushes (a ++ b) = flushes a + flushes b := by
  induction a with
  | nil => simp [flushes]
  | cons e a ih => cases e <;> simp [flushes, ih]; omega

theorem playedSteps_append (a b : List Event) :
    playedSteps (a ++ b) = playedSteps a ++ playedSteps b := by
  induction a with
  | nil => rfl
  | cons e a ih =>
    cases e with
    | serial line => cases line <;> simp [playedSteps, ih]
    | _ => simp [playedSteps, ih]

theorem sampleFor_some (sound : Nat) (h : sound < numSounds) :
    ∃ p, sampleFor sound = some p := by
  unfold numSounds at h
  interval_cases sound <;> exact ⟨_, rfl⟩

theorem runningAfter_eq (env : Env) (sound : Nat) (h : sound < numSounds) (b : Bool) :
    runningAfter env sound b = (b && !env.stopDuring sound) := by
  obtain ⟨p, hp⟩ := sampleFor_some sound h
  simp [runningAfter, hp]

theorem dispatched_playSample (i2sData : Option (List Int)) (sampleData : Nat → Int)
    (sampleLength : Int) : dispatched (playSample i2sData sampleData sampleLength) = [] := by
  cases i2sData <;> rfl

theorem flushes_playSample (i2sData : Option (List Int)) (sampleData : Nat → Int)
    (sampleLength : Int) : flushes (playSample i2sData sampleData sampleLength) = 0 := by
  cases i2sData <;> rfl

theorem playedSteps_playSample (i2sData : Option (List Int)) (sampleData : Nat → Int)
    (sampleLength : Int) : playedSteps (playSample i2sData sampleData sampleLength) = [] := by
  cases i2sData <;> rfl

theorem dispatched_playLane (kit : DKit) (env : Env) (sound : Nat) (h : sound < numSounds)
    (step : Int) : dispatched (playLane kit env sound step) = [sound] := by
  obtain ⟨⟨d, l⟩, hp⟩ := sampleFor_some sound h
  simp [playLane, hp, dispatched, dispatched_playSample]

theorem flushes_playLane (kit : DKit) (env : Env) (sound : Nat) (step : Int) :
    flushes (playLane kit env sound step) = 0 := by
  unfold playLane
  cases sampleFor sound with
  | none => simp [flushes]
  | some p => simp [flushes, flushes_playSample]

theorem playedSteps_playLane (kit : DKit) (env : Env) (sound : Nat) (step : Int) :
    playedSteps (playLane kit env sound step) = [step] := by
  unfold playLane
  cases sampleFor sound with
  | none => simp [playedSteps]
  | some p => simp [playedSteps, playedSteps_playSample]

/-! ## Grid accessors -/

theorem toIndex_some (n : Nat) (i : Int) (h : 0 ≤ i ∧ i < n) :
    ∃ k : Fin n, toIndex n i = some k ∧ (k.val : Int) = i := by
  refine ⟨⟨i.toNat, by omega⟩, ?_, ?_⟩
  · simp [toIndex, h]
  · simp; omega

theorem toIndex_none (n : Nat) (i : Int) (h : ¬ (0 ≤ i ∧ i < n)) : toIndex n i = none := by
  simp only [toIndex, h, dite_false]

theorem toIndex_val (n : Nat) (k : Fin n) : toIndex n (k.val : Int) = some k := by
  have h : 0 ≤ (k.val : Int) ∧ (k.val : Int) < n := ⟨by omega, by exact_mod_cast k.isLt⟩
  simp [toIndex, h]

theorem read_some (g : Grid) (r c : Int) (hr : 0 ≤ r ∧ r < numSounds)
    (hc : 0 ≤ c ∧ c < numSteps) : ∃ v, g.read r c = some v := by
  obtain ⟨i, hi, _⟩ := toIndex_some numSounds r hr
  obtain ⟨j, hj, _⟩ := toIndex_some numSteps c hc
  exact ⟨g i j, by simp [Grid.read, hi, hj]⟩

/-! ## The lane loop -/

/-- The lane loop always runs to its end when the step is a column of the
grid, and changes nothing but `isRunning`. -/
theorem soundLoop_frame (kit : DKit) (env : Env) :
    ∀ (remaining sound : Nat) (s : State), sound + remaining ≤ numSounds →
      (0 ≤ s.currentStep ∧ s.currentStep < numSteps) →
      ∃ r t, soundLoop kit env remaining sound s = some ({ s with isRunning := r }, t) := by
  intro remaining
  induction remaining with
  | zero => intro sound s _ _; exact ⟨s.isRunning, [], rfl⟩
  | succ n ih =>
    intro sound s hs hc
    obtain ⟨v, hv⟩ := read_some s.soundSequences sound s.currentStep
      ⟨by omega, by exact_mod_cast (by omega : sound < numSounds)⟩ hc
    cases v with
    | false =>
      simp only [soundLoop, hv]
      exact ih (sound + 1) s (by omega) hc
    | true =>
      simp only [soundLoop, hv]
      split
      · exact ⟨_, _, rfl⟩
      · obtain ⟨r, t, h⟩ := ih (sound + 1)
          { s with isRunning := runningAfter env sound s.isRunning } (by omega) hc
        rw [h]
        exact ⟨r, _, rfl⟩

/-- The lane loop when no active lane left to visit stops the sequencer. -/
theorem soundLoop_noStop (kit : DKit) (env : Env) (g : Grid) (cx cy c : Int)
    (hc : 0 ≤ c ∧ c < numSteps) :
    ∀ (remaining sound : Nat), sound + remaining ≤ numSounds →
      (∀ r, sound ≤ r → r < sound + remaining → isActive g c r = true →
        env.stopDuring r = false) →
      ∃ t, soundLoop kit env remaining sound ⟨g, cx, cy, true, c⟩
          = some (⟨g, cx, cy, true, c⟩, t)
        ∧ dispatched t = (List.range' sound remaining).filter (isActive g c)
        ∧ playedSteps t = List.replicate (dispatched t).length c
        ∧ flushes t = 0 := by
  intro remaining
  induction remaining with
  | zero => intro sound _ _; exact ⟨[], rfl, rfl, rfl, rfl⟩
  | succ n ih =>
    intro sound hs hstay
    have hlt : sound < numSounds := by omega
    obtain ⟨v, hv⟩ := read_some g sound c ⟨by omega, by exact_mod_cast hlt⟩ hc
    obtain ⟨t, ht, hd, hp, hf⟩ := ih (sound + 1) (by omega)
      (fun r h1 h2 => hstay r (by omega) (by omega))
    cases v with
    | false =>
      refine ⟨t, ?_, ?_, hp, hf⟩
      · simp only [soundLoop, hv]; exact ht
      · rw [hd, List.range'_succ, List.filter_cons]; simp [isActive, hv]
    | true =>
      have hst : env.stopDuring sound = false :=
        hstay sound (by omega) (by omega) (by simp [isActive, hv])
      refine ⟨playLane kit env sound c ++ t, ?_, ?_, ?_, ?_⟩
      · simp only [soundLoop, hv, runningAfter_eq env sound hlt, hst]
        simp [ht]
      · rw [dispatched_append, dispatched_playLane kit env sound hlt, hd, List.range'_succ,
          List.filter_cons]
        simp [isActive, hv]
      · rw [playedSteps_append, playedSteps_playLane, hp, dispatched_append,
          dispatched_playLane kit env sound hlt]
        rfl
      · rw [flushes_append, flushes_playLane, hf]

/-- The lane loop when the sequencer is stopped during active lane `k` and
during no active lane visited before it. -/
theorem soundLoop_stop (kit : DKit) (env : Env) (g : Grid) (cx cy c : Int)
    (hc : 0 ≤ c ∧ c < numSteps) (k : Nat) (hk : isActive g c k = true)
    (hstop : env.stopDuring k = true) :
    ∀ (remaining sound : Nat), sound + remaining ≤ numSounds →
      sound ≤ k → k < sound + remaining →
      (∀ r, sound ≤ r → r < k → isActive g c r = true → env.stopDuring r = false) →
      ∃ t, soundLoop kit env remaining sound ⟨g, cx, cy, true, c⟩
          = some (⟨g, cx, cy, false, c⟩, t)
        ∧ dispatched t = (List.range' sound (k + 1 - sound)).filter (isActive g c)
        ∧ playedSteps t = List.replicate (dispatched t).length c
        ∧ flushes t = 1 := by
  have hk2 : g.read k c = some true := by simpa [isActive] using hk
  intro remaining
  induction remaining with
  | zero => intro sound _ h1 h2; omega
  | succ n ih =>
    intro sound hs hle hlt hfirst
    have hlt8 : sound < numSounds := by omega
    rcases Nat.eq_or_lt_of_le hle with heq | hlt2
    · subst heq
      refine ⟨playLane kit env sound c ++ [Event.zeroDmaBuffer], ?_, ?_, ?_, ?_⟩
      · simp only [soundLoop, hk2, runningAfter_eq env sound hlt8, hstop]
        simp
      · rw [dispatched_append, dispatched_playLane kit env sound hlt8]
        have : sound + 1 - sound = 1 := by omega
        rw [this]
        simp [dispatched, hk, List.range']
      · rw [playedSteps_append, playedSteps_playLane, dispatched_append,
          dispatched_playLane kit env sound hlt8]
        rfl
      · rw [flushes_append, flushes_playLane]; rfl
    · obtain ⟨v, hv⟩ := read_some g sound c ⟨by omega, by exact_mod_cast hlt8⟩ hc
      obtain ⟨t, ht, hd, hp, hf⟩ := ih (sound + 1) (by omega) (by omega) (by omega)
        (fun r h1 h2 => hfirst r (by omega) h2)
      have hrange : k + 1 - sound = (k + 1 - (sound + 1)) + 1 := by omega
      cases v with
      | false =>
        refine ⟨t, ?_, ?_, hp, hf⟩
        · simp only [soundLoop, hv]; exact ht
        · rw [hd, hrange, List.range'_succ, List.filter_cons]; simp [isActive, hv]
      | true =>
        have hst : env.stopDuring sound = false :=
          hfirst sound (by omega) hlt2 (by simp [isActive, hv])
        refine ⟨playLane kit env sound c ++ t, ?_, ?_, ?_, ?_⟩
        · simp only [soundLoop, hv, runningAfter_eq env sound hlt8, hst]
          simp [ht]
        · rw [dispatched_append, dispatched_playLane kit env sound hlt8, hd, hrange,
            List.range'_succ, List.filter_cons]
          simp [isActive, hv]
        · rw [playedSteps_append, playedSteps_playLane, hp, dispatched_append,
            dispatched_playLane kit env sound hlt8]
          rfl
        · rw [flushes_append, flushes_playLane, hf]

/-! ## The sequencer tick -/

theorem tick_total (kit : DKit) (env : Env) (s : State) (hrun : s.isRunning = true)
    (hstep : 0 ≤ s.currentStep ∧ s.currentStep < numSteps) :
    ∃ r t, tick kit env s
      = some ({ s with isRunning := r, currentStep := (s.currentStep + 1) % 16 }, t) := by
  obtain ⟨r, t, h⟩ := soundLoop_frame kit env numSounds 0 s (by omega) hstep
  have h1 : Int.tmod (s.currentStep + 1) (numSteps : Int) = (s.currentStep + 1) % 16 := by
    rw [Int.tmod_eq_emod (by omega) (by simp [numSteps])]
    simp [numSteps]
  refine ⟨r, t ++ [Event.delay 125, Event.serial (Line.currentStep ((s.currentStep + 1) % 16)),
    Event.printMatrix], ?_⟩
  simp only [tick, hrun, if_true, h, h1]

theorem tick_eq_of_soundLoop (kit : DKit) (env : Env) (s s1 : State) (t : List Event)
    (hrun : s.isRunning = true) (h : soundLoop kit env numSounds 0 s = some (s1, t)) :
    tick kit env s
      = some ({ s1 with currentStep := Int.tmod (s1.currentStep + 1) numSteps },
          t ++ [Event.delay 125,
            Event.serial (Line.currentStep (Int.tmod (s1.currentStep + 1) numSteps)),
            Event.printMatrix]) := by
  simp only [tick, hrun, if_true, h]

/-- C1 (dispatch ordering).  A tick that starts while running, on a step
`currentStep` in `[0,16)`, during which no active lane stops the sequencer,
calls `playSample` exactly for the lanes `r < 8` whose cell
`soundSequences[r][currentStep]` is set, once each and in strictly ascending
order of `r`; the step named with each call is `currentStep` as it was before
the tick, and the sequencer is still running afterwards. -/
theorem tick_dispatch_ordering (kit : DKit) (env : Env) (s : State)
    (hrun : s.isRunning = true)
    (hstep : 0 ≤ s.currentStep ∧ s.currentStep < 16)
    (hstay : ∀ r ∈ activeLanes s.soundSequences s.currentStep, env.stopDuring r = false) :
    ∃ s1 t, tick kit env s = some (s1, t)
      ∧ s1.isRunning = true
      ∧ dispatched t = activeLanes s.soundSequences s.currentStep
      ∧ List.Pairwise (fun a b => a < b) (dispatched t)
      ∧ (∀ r, (dispatched t).count r
          = if r < 8 ∧ s.soundSequences.read r s.currentStep = some true then 1 else 0)
      ∧ playedSteps t = List.replicate (dispatched t).length s.currentStep := by
  obtain ⟨g, cx, cy, run, c⟩ := s
  simp only at hrun hstep hstay ⊢
  subst hrun
  have hc : 0 ≤ c ∧ c < (numSteps : Int) := by simpa [numSteps] using hstep
  obtain ⟨t, ht, hd, hp, hf⟩ := soundLoop_noStop kit env g cx cy c hc numSounds 0 (by omega)
    (fun r _ h2 h3 => hstay r (by
      simp only [activeLanes, List.mem_filter, List.mem_range]
      exact ⟨by omega, h3⟩))
  have hd2 : dispatched t = activeLanes g c := by
    rw [hd, ← List.range_eq_range']; rfl
  have htick := tick_eq_of_soundLoop kit env _ _ t rfl ht
  have hpw : List.Pairwise (fun a b => a < b) (dispatched t) := by
    rw [hd2]
    exact List.Pairwise.filter _ (List.pairwise_lt_range _)
  refine ⟨_, _, htick, rfl, ?_, ?_, ?_, ?_⟩
  · simpa [dispatched_append, dispatched] using hd2
  · simpa [dispatched_append, dispatched] using hpw
  · intro r
    have hnd : (dispatched t).Nodup := hpw.imp (fun h => Nat.ne_of_lt h)
    have hmem : r ∈ dispatched t ↔ r < 8 ∧ g.read r c = some true := by
      rw [hd2]; simp [activeLanes, isActive, numSounds]
    simp only [dispatched_append, dispatched, List.append_nil]
    by_cases h : r < 8 ∧ g.read r c = some true
    · rw [if_pos h]
      exact List.count_eq_one_of_mem hnd (hmem.mpr h)
    · rw [if_neg h]
      exact List.count_eq_zero_of_not_mem (fun hm => h (hmem.mp hm))
  · simpa [dispatched_append, dispatched, playedSteps_append, playedSteps] using hp

/-- C2 (cancellation).  In a tick that starts while running on a step in
`[0,16)`, if the sequencer is stopped during the playback of active lane `k`
(and of no active lane before it, so that lane `k` is reached), then the
lanes dispatched are exactly the active lanes up to and including `k`, no
lane above `k` is dispatched, `i2s_zero_dma_buffer` is called exactly once,
and the sequencer is stopped when the tick ends. -/
theorem tick_cancellation (kit : DKit) (env : Env) (s : State)
    (hrun : s.isRunning = true)
    (hstep : 0 ≤ s.currentStep ∧ s.currentStep < 16)
    (k : Nat) (hk : k ∈ activeLanes s.soundSequences s.currentStep)
    (hstop : env.stopDuring k = true)
    (hfirst : ∀ r ∈ activeLanes s.soundSequences s.currentStep, r < k →
      env.stopDuring r = false) :
    ∃ s1 t, tick kit env s = some (s1, t)
      ∧ s1.isRunning = false
      ∧ dispatched t = (List.range (k + 1)).filter (isActive s.soundSequences s.currentStep)
      ∧ k ∈ dispatched t
      ∧ (∀ r ∈ dispatched t, r ≤ k)
      ∧ flushes t = 1 := by
  obtain ⟨g, cx, cy, run, c⟩ := s
  simp only at hrun hstep hk hstop hfirst ⊢
  subst hrun
  have hc : 0 ≤ c ∧ c < (numSteps : Int) := by simpa [numSteps] using hstep
  simp only [activeLanes, List.mem_filter, List.mem_range] at hk hfirst
  obtain ⟨t, ht, hd, hp, hf⟩ := soundLoop_stop kit env g cx cy c hc k hk.2 hstop numSounds 0
    (by omega) (by omega) (by omega) (fun r _ h2 h3 => hfirst r ⟨by omega, h3⟩ h2)
  have hd2 : dispatched t = (List.range (k + 1)).filter (isActive g c) := by
    rw [hd, List.range_eq_range']; rfl
  have htick := tick_eq_of_soundLoop kit env _ _ t rfl ht
  refine ⟨_, _, htick, rfl, ?_, ?_, ?_, ?_⟩
  · simpa [dispatched_append, dispatched] using hd2
  · simp only [dispatched_append, dispatched, List.append_nil, hd2, List.mem_filter,
      List.mem_range]
    exact ⟨by omega, hk.2⟩
  · intro r hr
    simp only [dispatched_append, dispatched, List.append_nil, hd2, List.mem_filter,
      List.mem_range] at hr
    omega
  · simp [flushes_append, flushes, hf]

/-- C4 (step wrap).  A tick that starts while running on a step in `[0,16)`
ends with `currentStep` equal to `(currentStep + 1) mod 16`, which is again
in `[0,16)`; from step 15 it ends on step 0. -/
theorem tick_step_wrap (kit : DKit) (env : Env) (s : State)
    (hrun : s.isRunning = true)
    (hstep : 0 ≤ s.currentStep ∧ s.currentStep < 16) :
    ∃ s1 t, tick kit env s = some (s1, t)
      ∧ s1.currentStep = (s.currentStep + 1) % 16
      ∧ (0 ≤ s1.currentStep ∧ s1.currentStep < 16)
      ∧ (s.currentStep = 15 → s1.currentStep = 0) := by
  obtain ⟨r, t, h⟩ := tick_total kit env s hrun (by simpa [numSteps] using hstep)
  refine ⟨_, t, h, rfl, ?_, ?_⟩
  · simp only; omega
  · intro h15; simp only [h15]; rfl

/-- C3 (conversion correctness).  For sample data of `n` signed 8-bit values
and a successful allocation, `playSample` makes exactly one `i2s_write`, of
`2 * n` bytes, whose buffer has exactly `n` frames; frame `i` is
`sampleData[i] * 256`, which is its own 16-bit value (nothing is lost) and
lies in `[-32768, 32512]`.  The byte `0xFF` read as a signed sample is `-1`,
and its frame is `-256`, the 16-bit pattern `0xFF00`. -/
theorem playSample_conversion (sampleData : Nat → Int) (n : Nat) (buf : List Int)
    (hn : n < 2 ^ 31) (hbuf : buf.length = n)
    (h8 : ∀ i, i < n → -128 ≤ sampleData i ∧ sampleData i ≤ 127) :
    ∃ frames, playSample (some buf) sampleData n = [Event.i2sWrite frames (2 * n)]
      ∧ frames.length = n
      ∧ (∀ i (hi : i < frames.length),
          frames[i] = sampleData i * 256
          ∧ toInt16 (sampleData i * 256) = sampleData i * 256
          ∧ -32768 ≤ frames[i] ∧ frames[i] ≤ 32512)
      ∧ (malloc true (toSize ((n : Int) * 2))).map List.length = some n
      ∧ wrapInt 8 0xFF = -1
      ∧ playSample (some [0]) (fun _ => -1) 1 = [Event.i2sWrite [-256] 2]
      ∧ toInt16 0xFF00 = -256 := by
  refine ⟨(List.range n).map fun i => toInt16 (shl (sampleData i) 8), ?_, by simp, ?_, ?_,
    by decide, by decide, by decide⟩
  · simp only [playSample, convertLoop_eq sampleData n buf hbuf, toSize_double n hn]
  · intro i hi
    have hi2 : i < n := by simpa using hi
    obtain ⟨hlo, hhi⟩ := h8 i hi2
    have hv : toInt16 (shl (sampleData i) 8) = sampleData i * 256 := shl8_int8 _ hlo hhi
    have h16 : toInt16 (sampleData i * 256) = sampleData i * 256 := by
      simp only [toInt16, wrapInt]
      norm_num
      omega
    simp only [List.getElem_map, List.getElem_range, hv]
    exact ⟨trivial, h16, by omega, by omega⟩
  · simp [malloc, toSize_double n hn]

/-! ## The select button -/

theorem loop_select_eq (s : State) (i : Fin numSounds) (j : Fin numSteps)
    (hi : toIndex numSounds s.cursorY = some i) (hj : toIndex numSteps s.cursorX = some j) :
    loop_select true s
      = some ({ s with soundSequences := (Function.update s.soundSequences i
            (Function.update (s.soundSequences i) j (!s.soundSequences i j))) },
          [Event.serial (Line.toggled s.cursorY s.cursorX (!s.soundSequences i j)),
            Event.printMatrix, Event.delay 200]) := by
  simp [loop_select, Grid.read, Grid.write, hi, hj]

/-- With the cursor off the grid the select block accesses the array out of
bounds. -/
theorem loop_select_out_of_bounds (s : State)
    (h : ¬ (0 ≤ s.cursorY ∧ s.cursorY < 8) ∨ ¬ (0 ≤ s.cursorX ∧ s.cursorX < 16)) :
    loop_select true s = none := by
  rcases h with h | h
  · have hi := toIndex_none numSounds s.cursorY (by simpa [numSounds] using h)
    simp [loop_select, Grid.read, hi]
  · have hj := toIndex_none numSteps s.cursorX (by simpa [numSteps] using h)
    simp only [loop_select, Grid.read, hj, if_true]
    cases toIndex numSounds s.cursorY <;> rfl

/-- C5 (toggle round-trip).  With the cursor on a cell of the grid, pressing
select twice brings the whole state, and so the whole grid and the cell under
the cursor, back to what it was; after the first press the cell is negated. -/
theorem toggle_round_trip (s : State)
    (hy : 0 ≤ s.cursorY ∧ s.cursorY < 8) (hx : 0 ≤ s.cursorX ∧ s.cursorX < 16) :
    ∃ s1 t1 s2 t2, loop_select true s = some (s1, t1) ∧ loop_select true s1 = some (s2, t2)
      ∧ s2 = s
      ∧ s2.soundSequences = s.soundSequences
      ∧ s2.soundSequences.read s.cursorY s.cursorX = s.soundSequences.read s.cursorY s.cursorX
      ∧ s1.soundSequences.read s.cursorY s.cursorX
          = (s.soundSequences.read s.cursorY s.cursorX).map (fun v => !v)
      ∧ (s.soundSequences.read s.cursorY s.cursorX).isSome = true := by
  obtain ⟨i, hi, _⟩ := toIndex_some numSounds s.cursorY (by simpa [numSounds] using hy)
  obtain ⟨j, hj, _⟩ := toIndex_some numSteps s.cursorX (by simpa [numSteps] using hx)
  have h1 := loop_select_eq s i j hi hj
  have h2 := loop_select_eq { s with soundSequences := (Function.update s.soundSequences i
            (Function.update (s.soundSequences i) j (!s.soundSequences i j))) } i j
      (by simpa using hi) (by simpa using hj)
  refine ⟨_, _, _, _, h1, h2, ?_, ?_, ?_, ?_, ?_⟩
  · obtain ⟨g, cx, cy, run, c⟩ := s
    simp
  · simp
  · simp
  · simp [Grid.read, hi, hj]
  · simp [Grid.read, hi, hj]

/-- C6 (toggle frame).  With the cursor on a cell of the grid, pressing
select negates the cell `soundSequences[cursorY][cursorX]` and leaves every
other cell, the cursor, `isRunning` and `currentStep` as they were. -/
theorem toggle_frame (s : State)
    (hy : 0 ≤ s.cursorY ∧ s.cursorY < 8) (hx : 0 ≤ s.cursorX ∧ s.cursorX < 16) :
    ∃ s1 t, loop_select true s = some (s1, t)
      ∧ (∀ (a : Fin numSounds) (b : Fin numSteps),
          (a.val : Int) = s.cursorY → (b.val : Int) = s.cursorX →
            s1.soundSequences a b = !s.soundSequences a b)
      ∧ (∀ (a : Fin numSounds) (b : Fin numSteps),
          ¬ ((a.val : Int) = s.cursorY ∧ (b.val : Int) = s.cursorX) →
            s1.soundSequences a b = s.soundSequences a b)
      ∧ s1.cursorX = s.cursorX ∧ s1.cursorY = s.cursorY
      ∧ s1.isRunning = s.isRunning ∧ s1.currentStep = s.currentStep := by
  obtain ⟨i, hi, hi2⟩ := toIndex_some numSounds s.cursorY (by simpa [numSounds] using hy)
  obtain ⟨j, hj, hj2⟩ := toIndex_some numSteps s.cursorX (by simpa [numSteps] using hx)
  refine ⟨_, _, loop_select_eq s i j hi hj, ?_, ?_, rfl, rfl, rfl, rfl⟩
  · intro a b ha hb
    have hai : a = i := Fin.ext (by omega)
    have hbj : b = j := Fin.ext (by omega)
    subst hai hbj
    simp
  · intro a b hab
    by_cases hai : a = i
    · subst hai
      have hbj : b ≠ j := fun h => hab ⟨hi2, by rw [h]; exact hj2⟩
      simp [Function.update_noteq hbj]
    · simp [Function.update_noteq hai]

/-! ## The reset button -/

theorem resetRow_fold (i : Fin numSounds) :
    ∀ (m : Nat), m ≤ numSteps → ∀ g : Grid,
      (List.range m).foldlM (fun (g : Grid) (j : Nat) => g.write i.val j false) g
        = some (fun a b => if a = i ∧ b.val < m then false else g a b) := by
  intro m
  induction m with
  | zero => intro _ g; simp
  | succ m ih =>
    intro hm g
    have hj := toIndex_val numSteps ⟨m, by omega⟩
    have hi := toIndex_val numSounds i
    simp only at hj
    rw [List.range_succ, List.foldlM_append, ih (by omega) g]
    simp only [Option.bind_eq_bind, Option.some_bind, List.foldlM_cons, List.foldlM_nil,
      Grid.write, hi, hj, Option.pure_def, Option.bind_some]
    congr 1
    funext a b
    by_cases ha : a = i
    · subst ha
      by_cases hb : b = ⟨m, by omega⟩
      · subst hb; simp
      · have hb2 : b.val ≠ m := fun h => hb (Fin.ext h)
        simp only [Function.update_same, Function.update_noteq hb, true_and]
        by_cases hlt : b.val < m
        · simp [hlt, Nat.lt_succ_of_lt hlt]
        · have : ¬ b.val < m + 1 := by omega
          simp [hlt, this]
    · simp [Function.update_noteq ha, ha]

theorem resetRow_eq (g : Grid) (i : Fin numSounds) :
    resetRow g i.val = some (fun a b => if a = i then false else g a b) := by
  unfold resetRow
  rw [resetRow_fold i numSteps (le_refl _) g]
  congr 1
  funext a b
  simp [b.isLt]

theorem resetGrid_fold :
    ∀ (m : Nat), m ≤ numSounds → ∀ g : Grid,
      (List.range m).foldlM (fun (g : Grid) (i : Nat) => resetRow g i) g
        = some (fun a b => if a.val < m then false else g a b) := by
  intro m
  induction m with
  | zero => intro _ g; simp
  | succ m ih =>
    intro hm g
    have hr := fun g => resetRow_eq g ⟨m, by omega⟩
    simp only at hr
    rw [List.range_succ, List.foldlM_append, ih (by omega) g]
    simp only [Option.bind_eq_bind, Option.some_bind, List.foldlM_cons, List.foldlM_nil, hr,
      Option.pure_def, Option.bind_some]
    congr 1
    funext a b
    by_cases ha : a = ⟨m, by omega⟩
    · subst ha; simp
    · have ha2 : a.val ≠ m := fun h => ha (Fin.ext h)
      simp only [ha, if_false]
      by_cases hlt : a.val < m
      · simp [hlt, Nat.lt_succ_of_lt hlt]
      · have : ¬ a.val < m + 1 := by omega
        simp [hlt, this]

theorem resetGrid_eq (g : Grid) : resetGrid g = some (fun _ _ => false) := by
  unfold resetGrid
  rw [resetGrid_fold numSounds (le_refl _) g]
  congr 1
  funext a b
  simp [a.isLt]

theorem loop_reset_eq (s : State) :
    loop_reset true s
      = some ({ s with soundSequences := fun _ _ => false },
          [Event.serial Line.sequencerReset, Event.printMatrix, Event.delay 200]) := by
  simp [loop_reset, resetGrid_eq]

/-- C7 (clear is absorbing).  Whatever the grid was, after the reset button
every cell of the grid is off; pressing reset again gives the same state, and
so the same grid. -/
theorem reset_absorbing (s : State) :
    ∃ s1 t1, loop_reset true s = some (s1, t1)
      ∧ (∀ (a : Fin numSounds) (b : Fin numSteps), s1.soundSequences a b = false)
      ∧ (∀ (a : Fin 8) (b : Fin 16), s1.soundSequences.read a.val b.val = some false)
      ∧ ∃ s2 t2, loop_reset true s1 = some (s2, t2) ∧ s2 = s1
          ∧ s2.soundSequences = s1.soundSequences := by
  refine ⟨_, _, loop_reset_eq s, fun _ _ => rfl, ?_, _, _, loop_reset_eq _, rfl, rfl⟩
  intro a b
  have ha := toIndex_val numSounds a
  have hb := toIndex_val numSteps b
  simp only [Grid.read]
  rw [ha, hb]

/-! ## The cursor buttons -/

/-- C8 (cursor clamp).  With the cursor on the grid: up on row 0, down on
row 7, left on column 0 and right on column 15 leave the state as it is and
do nothing, however often repeated; anywhere else up and down change
`cursorY` by one and left and right change `cursorX` by one, and nothing
else changes. -/
theorem cursor_clamp (s : State)
    (hy : 0 ≤ s.cursorY ∧ s.cursorY < 8) (hx : 0 ≤ s.cursorX ∧ s.cursorX < 16) :
    (s.cursorY = 0 →
        (∀ n, Nat.iterate (fun x => (loop_up true x).1) n s = s) ∧ (loop_up true s).2 = [])
      ∧ (s.cursorY = 7 →
        (∀ n, Nat.iterate (fun x => (loop_down true x).1) n s = s) ∧ (loop_down true s).2 = [])
      ∧ (s.cursorX = 0 →
        (∀ n, Nat.iterate (fun x => (loop_left true x).1) n s = s) ∧ (loop_left true s).2 = [])
      ∧ (s.cursorX = 15 →
        (∀ n, Nat.iterate (fun x => (loop_right true x).1) n s = s)
          ∧ (loop_right true s).2 = [])
      ∧ (0 < s.cursorY → (loop_up true s).1 = { s with cursorY := s.cursorY - 1 })
      ∧ (s.cursorY < 7 → (loop_down true s).1 = { s with cursorY := s.cursorY + 1 })
      ∧ (0 < s.cursorX → (loop_left true s).1 = { s with cursorX := s.cursorX - 1 })
      ∧ (s.cursorX < 15 → (loop_right true s).1 = { s with cursorX := s.cursorX + 1 }) := by
  refine ⟨?_, ?_, ?_, ?_, ?_, ?_, ?_, ?_⟩
  · intro h
    have hfix : (loop_up true s) = (s, []) := by simp [loop_up, h]
    exact ⟨fun n => Function.iterate_fixed (by simp only [hfix]) n, by rw [hfix]⟩
  · intro h
    have hfix : (loop_down true s) = (s, []) := by simp [loop_down, h, numSounds]
    exact ⟨fun n => Function.iterate_fixed (by simp only [hfix]) n, by rw [hfix]⟩
  · intro h
    have hfix : (loop_left true s) = (s, []) := by simp [loop_left, h]
    exact ⟨fun n => Function.iterate_fixed (by simp only [hfix]) n, by rw [hfix]⟩
  · intro h
    have hfix : (loop_right true s) = (s, []) := by simp [loop_right, h, numSteps]
    exact ⟨fun n => Function.iterate_fixed (by simp only [hfix]) n, by rw [hfix]⟩
  · intro h; simp [loop_up, h]
  · intro h
    have h2 : s.cursorY < (numSounds : Int) - 1 := by simp [numSounds]; omega
    simp [loop_down, h2]
  · intro h; simp [loop_left, h]
  · intro h
    have h2 : s.cursorX < (numSteps : Int) - 1 := by simp [numSteps]; omega
    simp [loop_right, h2]

/-- C10 (stop and reset preserve the step).  The start/stop button negates
`isRunning` and changes nothing else; the reset button clears the grid and
changes nothing else, so neither of them touches `currentStep` or the
cursor. -/
theorem startStop_reset_frame (s : State) :
    (loop_startStop true s).1 = { s with isRunning := !s.isRunning }
      ∧ (loop_startStop true s).1.currentStep = s.currentStep
      ∧ ∃ t, loop_reset true s = some ({ s with soundSequences := fun _ _ => false }, t) := by
  exact ⟨by simp [loop_startStop], by simp [loop_startStop], _, loop_reset_eq s⟩

/-! ## Passes of `loop` -/

theorem loop_up_inRange (p : Bool) (s : State) (h : InRange s) : InRange (loop_up p s).1 := by
  unfold loop_up InRange at *
  split
  · rename_i hc
    simp only [Bool.and_eq_true, decide_eq_true_eq] at hc
    simp only; omega
  · exact h

theorem loop_down_inRange (p : Bool) (s : State) (h : InRange s) :
    InRange (loop_down p s).1 := by
  unfold loop_down InRange at *
  split
  · rename_i hc
    simp only [Bool.and_eq_true, decide_eq_true_eq, numSounds] at hc
    simp only; omega
  · exact h

theorem loop_left_inRange (p : Bool) (s : State) (h : InRange s) :
    InRange (loop_left p s).1 := by
  unfold loop_left InRange at *
  split
  · rename_i hc
    simp only [Bool.and_eq_true, decide_eq_true_eq] at hc
    simp only; omega
  · exact h

theorem loop_right_inRange (p : Bool) (s : State) (h : InRange s) :
    InRange (loop_right p s).1 := by
  unfold loop_right InRange at *
  split
  · rename_i hc
    simp only [Bool.and_eq_true, decide_eq_true_eq, numSteps] at hc
    simp only; omega
  · exact h

theorem loop_select_inRange (p : Bool) (s : State) (h : InRange s) :
    ∃ s1 t, loop_select p s = some (s1, t) ∧ InRange s1 := by
  cases p with
  | false => exact ⟨s, [], rfl, h⟩
  | true =>
    obtain ⟨i, hi, _⟩ := toIndex_some numSounds s.cursorY (by simpa [numSounds] using h.1)
    obtain ⟨j, hj, _⟩ := toIndex_some numSteps s.cursorX (by simpa [numSteps] using h.2.1)
    exact ⟨_, _, loop_select_eq s i j hi hj, h⟩

theorem loop_startStop_inRange (p : Bool) (s : State) (h : InRange s) :
    InRange (loop_startStop p s).1 := by
  unfold loop_startStop
  split
  · exact h
  · exact h

theorem loop_reset_inRange (p : Bool) (s : State) (h : InRange s) :
    ∃ s1 t, loop_reset p s = some (s1, t) ∧ InRange s1 := by
  cases p with
  | false => exact ⟨s, [], rfl, h⟩
  | true => exact ⟨_, _, loop_reset_eq s, h⟩

theorem tick_inRange (kit : DKit) (env : Env) (s : State) (h : InRange s) :
    ∃ s1 t, tick kit env s = some (s1, t) ∧ InRange s1 := by
  cases hrun : s.isRunning with
  | false => exact ⟨s, [Event.zeroDmaBuffer], by simp [tick, hrun], h⟩
  | true =>
    obtain ⟨r, t, ht⟩ := tick_total kit env s hrun (by simpa [numSteps] using h.2.2)
    refine ⟨_, t, ht, h.1, h.2.1, ?_⟩
    simp only
    omega

theorem loop_inRange (kit : DKit) (env : Env) (b : Buttons) (s : State) (h : InRange s) :
    ∃ s1 t, loop kit env b s = some (s1, t) ∧ InRange s1 := by
  have h1 := loop_up_inRange b.up s h
  have h2 := loop_down_inRange b.down _ h1
  have h3 := loop_left_inRange b.left _ h2
  have h4 := loop_right_inRange b.right _ h3
  obtain ⟨s5, t5, e5, h5⟩ := loop_select_inRange b.select _ h4
  have h6 := loop_startStop_inRange b.startStop _ h5
  obtain ⟨s7, t7, e7, h7⟩ := loop_reset_inRange b.reset _ h6
  obtain ⟨s8, t8, e8, h8⟩ := tick_inRange kit env _ h7
  have e : ∃ t, loop kit env b s = some (s8, t) := by
    simp only [loop, e5, e7, e8]
    exact ⟨_, rfl⟩
  obtain ⟨t, e⟩ := e
  exact ⟨s8, t, e, h8⟩

theorem run_inRange (kit : DKit) :
    ∀ (inputs : List (Env × Buttons)) (s : State), InRange s →
      ∃ s1 t, run kit inputs s = some (s1, t) ∧ InRange s1 := by
  intro inputs
  induction inputs with
  | nil => intro s h; exact ⟨s, [], rfl, h⟩
  | cons x rest ih =>
    intro s h
    obtain ⟨env, b⟩ := x
    obtain ⟨s1, t1, e1, h1⟩ := loop_inRange kit env b s h
    obtain ⟨s2, t2, e2, h2⟩ := ih s1 h1
    exact ⟨s2, t1 ++ t2, by simp only [run, e1, e2], h2⟩

/-- C9 (in-range invariant).  From the initial state, any finite sequence of
passes of `loop`, whatever the buttons and whatever happens during playback,
runs without any access outside `soundSequences[8][16]` (every pass yields a
state) and ends with `0 ≤ cursorY < 8`, `0 ≤ cursorX < 16` and
`0 ≤ currentStep < 16`. -/
theorem run_in_range (kit : DKit) (inputs : List (Env × Buttons)) :
    ∃ s t, run kit inputs initialState = some (s, t)
      ∧ (0 ≤ s.cursorY ∧ s.cursorY < 8)
      ∧ (0 ≤ s.cursorX ∧ s.cursorX < 16)
      ∧ (0 ≤ s.currentStep ∧ s.currentStep < 16) :=
  run_inRange kit inputs initialState (by simp [InRange, initialState])

/-! ## The theorems at sample inputs -/

theorem tick_dispatch_ordering_witness :
    ∃ s1 t, tick exampleKit quietEnv exampleState = some (s1, t)
      ∧ dispatched t = [1, 3, 5] := by
  obtain ⟨s1, t, h, _, hd, _⟩ :=
    tick_dispatch_ordering exampleKit quietEnv exampleState rfl (by decide) (fun _ _ => rfl)
  exact ⟨s1, t, h, by rw [hd]; decide⟩

theorem tick_cancellation_witness :
    ∃ s1 t, tick exampleKit stopDuringOne exampleState = some (s1, t)
      ∧ dispatched t = [1] ∧ flushes t = 1 := by
  obtain ⟨s1, t, h, _, hd, _, _, hf⟩ :=
    tick_cancellation exampleKit stopDuringOne exampleState rfl (by decide) 1 (by decide) rfl
      (by decide)
  exact ⟨s1, t, h, by rw [hd]; decide, hf⟩

theorem playSample_conversion_witness :
    ∃ frames, playSample (some [0, 0]) (fun i => if i = 0 then -1 else 127) (2 : Nat)
        = [Event.i2sWrite frames (2 * 2)]
      ∧ frames = [-256, 32512] := by
  obtain ⟨frames, h, hl, hf, _⟩ :=
    playSample_conversion (fun i => if i = 0 then -1 else 127) 2 [0, 0] (by decide) rfl
      (by decide)
  refine ⟨frames, h, ?_⟩
  apply List.ext_getElem (by simpa using hl)
  intro i h1 h2
  rw [(hf i h1).1]
  have : i < 2 := by omega
  interval_cases i <;> rfl

theorem tick_step_wrap_witness :
    ∃ s1 t, tick exampleKit quietEnv lastStepState = some (s1, t) ∧ s1.currentStep = 0 := by
  obtain ⟨s1, t, h, _, _, h0⟩ :=
    tick_step_wrap exampleKit quietEnv lastStepState rfl (by decide)
  exact ⟨s1, t, h, h0 rfl⟩

theorem toggle_round_trip_witness :
    ∃ s1 t1 t2, loop_select true exampleState = some (s1, t1)
      ∧ loop_select true s1 = some (exampleState, t2) := by
  obtain ⟨s1, t1, s2, t2, h1, h2, hs, _⟩ :=
    toggle_round_trip exampleState (by decide) (by decide)
  exact ⟨s1, t1, t2, h1, hs ▸ h2⟩

theorem toggle_frame_witness :
    ∃ s1 t, loop_select true exampleState = some (s1, t)
      ∧ s1.soundSequences ⟨0, by decide⟩ ⟨15, by decide⟩ = true
      ∧ s1.soundSequences ⟨1, by decide⟩ ⟨2, by decide⟩ = true
      ∧ s1.soundSequences ⟨0, by decide⟩ ⟨14, by decide⟩ = false := by
  obtain ⟨s1, t, h, hc, ho, _⟩ := toggle_frame exampleState (by decide) (by decide)
  exact ⟨s1, t, h, by rw [hc ⟨0, by decide⟩ ⟨15, by decide⟩ rfl rfl]; rfl,
    by rw [ho ⟨1, by decide⟩ ⟨2, by decide⟩ (by decide)]; rfl,
    by rw [ho ⟨0, by decide⟩ ⟨14, by decide⟩ (by decide)]; rfl⟩

theorem cursor_clamp_witness :
    (∀ n, Nat.iterate (fun x => (loop_up true x).1) n exampleState = exampleState)
      ∧ (∀ n, Nat.iterate (fun x => (loop_right true x).1) n exampleState = exampleState)
      ∧ (loop_down true exampleState).1 = { exampleState with cursorY := 1 }
      ∧ (loop_left true exampleState).1 = { exampleState with cursorX := 14 } := by
  obtain ⟨hu, _, _, hr, _, hd, hl, _⟩ := cursor_clamp exampleState (by decide) (by decide)
  exact ⟨(hu rfl).1, (hr rfl).1, hd (by decide), hl (by decide)⟩

/-! ## The button handling of a pass -/

theorem loop_of_buttons (kit : DKit) (env : Env) (b : Buttons) (s s7 s8 : State)
    (t7 t8 : List Event) (h : loop_buttons b s = some (s7, t7))
    (ht : tick kit env s7 = some (s8, t8)) :
    loop kit env b s = some (s8, t7 ++ t8) := by
  unfold loop_buttons at h
  unfold loop
  simp only at h ⊢
  cases h5 : loop_select b.select
      (loop_right b.right (loop_left b.left (loop_down b.down (loop_up b.up s).1).1).1).1 with
  | none => simp [h5] at h
  | some p5 =>
    obtain ⟨s5, t5⟩ := p5
    simp only [h5] at h ⊢
    cases h7 : loop_reset b.reset (loop_startStop b.startStop s5).1 with
    | none => simp [h7] at h
    | some p7 =>
      obtain ⟨s7a, t7a⟩ := p7
      simp only [h7, Option.some.injEq, Prod.mk.injEq] at h ⊢
      obtain ⟨h1, h2⟩ := h
      subst h1 h2
      simp only [ht]

theorem loop_up_frame (p : Bool) (s : State) :
    (loop_up p s).1.soundSequences = s.soundSequences
      ∧ (loop_up p s).1.isRunning = s.isRunning
      ∧ (loop_up p s).1.currentStep = s.currentStep
      ∧ (loop_up p s).1.cursorX = s.cursorX
      ∧ ((0 ≤ s.cursorY ∧ s.cursorY < 8) →
          (0 ≤ (loop_up p s).1.cursorY ∧ (loop_up p s).1.cursorY < 8))
      ∧ dispatched (loop_up p s).2 = [] ∧ flushes (loop_up p s).2 = 0 := by
  unfold loop_up
  split
  · rename_i hc
    simp only [Bool.and_eq_true, decide_eq_true_eq] at hc
    refine ⟨rfl, rfl, rfl, rfl, fun h => ?_, rfl, rfl⟩
    simp only; omega
  · exact ⟨rfl, rfl, rfl, rfl, fun h => h, rfl, rfl⟩

theorem loop_down_frame (p : Bool) (s : State) :
    (loop_down p s).1.soundSequences = s.soundSequences
      ∧ (loop_down p s).1.isRunning = s.isRunning
      ∧ (loop_down p s).1.currentStep = s.currentStep
      ∧ (loop_down p s).1.cursorX = s.cursorX
      ∧ ((0 ≤ s.cursorY ∧ s.cursorY < 8) →
          (0 ≤ (loop_down p s).1.cursorY ∧ (loop_down p s).1.cursorY < 8))
      ∧ dispatched (loop_down p s).2 = [] ∧ flushes (loop_down p s).2 = 0 := by
  unfold loop_down
  split
  · rename_i hc
    simp only [Bool.and_eq_true, decide_eq_true_eq, numSounds] at hc
    refine ⟨rfl, rfl, rfl, rfl, fun h => ?_, rfl, rfl⟩
    simp only; omega
  · exact ⟨rfl, rfl, rfl, rfl, fun h => h, rfl, rfl⟩

theorem loop_left_frame (p : Bool) (s : State) :
    (loop_left p s).1.soundSequences = s.soundSequences
      ∧ (loop_left p s).1.isRunning = s.isRunning
      ∧ (loop_left p s).1.currentStep = s.currentStep
      ∧ (loop_left p s).1.cursorY = s.cursorY
      ∧ ((0 ≤ s.cursorX ∧ s.cursorX < 16) →
          (0 ≤ (loop_left p s).1.cursorX ∧ (loop_left p s).1.cursorX < 16))
      ∧ dispatched (loop_left p s).2 = [] ∧ flushes (loop_left p s).2 = 0 := by
  unfold loop_left
  split
  · rename_i hc
    simp only [Bool.and_eq_true, decide_eq_true_eq] at hc
    refine ⟨rfl, rfl, rfl, rfl, fun h => ?_, rfl, rfl⟩
    simp only; omega
  · exact ⟨rfl, rfl, rfl, rfl, fun h => h, rfl, rfl⟩

theorem loop_right_frame (p : Bool) (s : State) :
    (loop_right p s).1.soundSequences = s.soundSequences
      ∧ (loop_right p s).1.isRunning = s.isRunning
      ∧ (loop_right p s).1.currentStep = s.currentStep
      ∧ (loop_right p s).1.cursorY = s.cursorY
      ∧ ((0 ≤ s.cursorX ∧ s.cursorX < 16) →
          (0 ≤ (loop_right p s).1.cursorX ∧ (loop_right p s).1.cursorX < 16))
      ∧ dispatched (loop_right p s).2 = [] ∧ flushes (loop_right p s).2 = 0 := by
  unfold loop_right
  split
  · rename_i hc
    simp only [Bool.and_eq_true, decide_eq_true_eq, numSteps] at hc
    refine ⟨rfl, rfl, rfl, rfl, fun h => ?_, rfl, rfl⟩
    simp only; omega
  · exact ⟨rfl, rfl, rfl, rfl, fun h => h, rfl, rfl⟩

theorem loop_select_frame (p : Bool) (s : State)
    (h : p = true → (0 ≤ s.cursorY ∧ s.cursorY < 8) ∧ (0 ≤ s.cursorX ∧ s.cursorX < 16)) :
    ∃ s1 t, loop_select p s = some (s1, t)
      ∧ s1.isRunning = s.isRunning ∧ s1.currentStep = s.currentStep
      ∧ dispatched t = [] ∧ flushes t = 0 := by
  cases p with
  | false => exact ⟨s, [], rfl, rfl, rfl, rfl, rfl⟩
  | true =>
    obtain ⟨hy, hx⟩ := h rfl
    obtain ⟨i, hi, _⟩ := toIndex_some numSounds s.cursorY (by simpa [numSounds] using hy)
    obtain ⟨j, hj, _⟩ := toIndex_some numSteps s.cursorX (by simpa [numSteps] using hx)
    exact ⟨_, _, loop_select_eq s i j hi hj, rfl, rfl, rfl, rfl⟩

theorem loop_startStop_frame (p : Bool) (s : State) :
    (loop_startStop p s).1.isRunning = (if p then !s.isRunning else s.isRunning)
      ∧ (loop_startStop p s).1.currentStep = s.currentStep
      ∧ dispatched (loop_startStop p s).2 = [] ∧ flushes (loop_startStop p s).2 = 0 := by
  cases p <;> exact ⟨rfl, rfl, rfl, rfl⟩

theorem loop_reset_frame (p : Bool) (s : State) :
    ∃ s1 t, loop_reset p s = some (s1, t)
      ∧ s1.isRunning = s.isRunning ∧ s1.currentStep = s.currentStep
      ∧ dispatched t = [] ∧ flushes t = 0 := by
  cases p with
  | false => exact ⟨s, [], rfl, rfl, rfl, rfl, rfl⟩
  | true => exact ⟨_, _, loop_reset_eq s, rfl, rfl, rfl, rfl⟩

/-- The button handling completes when the select button finds the cursor on
the grid; it never plays or flushes, keeps `currentStep`, and changes
`isRunning` only through the start/stop button. -/
theorem loop_buttons_frame (b : Buttons) (s : State)
    (hcur : b.select = true →
      (0 ≤ s.cursorY ∧ s.cursorY < 8) ∧ (0 ≤ s.cursorX ∧ s.cursorX < 16)) :
    ∃ s7 t7, loop_buttons b s = some (s7, t7)
      ∧ s7.isRunning = (if b.startStop then !s.isRunning else s.isRunning)
      ∧ s7.currentStep = s.currentStep
      ∧ dispatched t7 = [] ∧ flushes t7 = 0 := by
  obtain ⟨_, r1, c1, x1, y1, d1, f1⟩ := loop_up_frame b.up s
  obtain ⟨_, r2, c2, x2, y2, d2, f2⟩ := loop_down_frame b.down (loop_up b.up s).1
  obtain ⟨_, r3, c3, y3, x3, d3, f3⟩ :=
    loop_left_frame b.left (loop_down b.down (loop_up b.up s).1).1
  obtain ⟨_, r4, c4, y4, x4, d4, f4⟩ :=
    loop_right_frame b.right (loop_left b.left (loop_down b.down (loop_up b.up s).1).1).1
  obtain ⟨s5, t5, e5, r5, c5, d5, f5⟩ := loop_select_frame b.select
    (loop_right b.right (loop_left b.left (loop_down b.down (loop_up b.up s).1).1).1).1
    (fun hsel => by
      obtain ⟨hy, hx⟩ := hcur hsel
      refine ⟨?_, ?_⟩
      · rw [y4, y3]; exact y2 (y1 hy)
      · apply x4; apply x3; rw [x2, x1]; exact hx)
  obtain ⟨r6, c6, d6, f6⟩ := loop_startStop_frame b.startStop s5
  obtain ⟨s7, t7, e7, r7, c7, d7, f7⟩ :=
    loop_reset_frame b.reset (loop_startStop b.startStop s5).1
  have e : ∃ t, loop_buttons b s = some (s7, t) ∧ dispatched t = [] ∧ flushes t = 0 := by
    simp only [loop_buttons, e5, e7]
    refine ⟨_, rfl, ?_, ?_⟩
    · simp only [dispatched_append, d1, d2, d3, d4, d5, d6, d7, List.append_nil]
    · simp only [flushes_append, f1, f2, f3, f4, f5, f6, f7]
  obtain ⟨t, e, hd, hf⟩ := e
  refine ⟨s7, t, e, ?_, ?_, hd, hf⟩
  · rw [r7, r6, r5, r4, r3, r2, r1]
  · rw [c7, c6, c5, c4, c3, c2, c1]

/-- C11 (idle pass).  In a pass of `loop` whose button handling completes
(the select button, if held, finds the cursor on the grid), if the sequencer
is stopped once the buttons are handled then, whatever the grid holds, the
pass calls `playSample` for no lane, calls `i2s_zero_dma_buffer` exactly once
and ends with `currentStep` as it was; a stopped tick alone is just that one
flush. -/
theorem idle_pass (kit : DKit) (env : Env) (b : Buttons) (s : State)
    (hcur : b.select = true →
      (0 ≤ s.cursorY ∧ s.cursorY < 8) ∧ (0 ≤ s.cursorX ∧ s.cursorX < 16))
    (hstopped : (if b.startStop then !s.isRunning else s.isRunning) = false) :
    ∃ s7 t7, loop_buttons b s = some (s7, t7)
      ∧ s7.isRunning = false
      ∧ tick kit env s7 = some (s7, [Event.zeroDmaBuffer])
      ∧ loop kit env b s = some (s7, t7 ++ [Event.zeroDmaBuffer])
      ∧ dispatched (t7 ++ [Event.zeroDmaBuffer]) = []
      ∧ flushes (t7 ++ [Event.zeroDmaBuffer]) = 1
      ∧ s7.currentStep = s.currentStep := by
  obtain ⟨s7, t7, e7, r7, c7, d7, f7⟩ := loop_buttons_frame b s hcur
  have hrun : s7.isRunning = false := by rw [r7, hstopped]
  have htick : tick kit env s7 = some (s7, [Event.zeroDmaBuffer]) := by
    simp [tick, hrun]
  refine ⟨s7, t7, e7, hrun, htick, loop_of_buttons kit env b s s7 s7 t7 _ e7 htick, ?_, ?_, c7⟩
  · simp [dispatched_append, d7, dispatched]
  · simp [flushes_append, f7, flushes]

theorem idle_pass_witness :
    ∃ s7 t, loop exampleKit quietEnv startStopOnly exampleState = some (s7, t)
      ∧ s7.isRunning = false ∧ dispatched t = [] ∧ flushes t = 1 ∧ s7.currentStep = 2 := by
  obtain ⟨s7, t7, _, hr, _, hl, hd, hf, hc⟩ :=
    idle_pass exampleKit quietEnv startStopOnly exampleState (by decide) rfl
  exact ⟨s7, _, hl, hr, hd, hf, hc⟩

/-! ## The whole trace of a tick -/

theorem written_append (a b : List Event) : written (a ++ b) = written a ++ written b := by
  induction a with
  | nil => rfl
  | cons e a ih => cases e <;> simp [written, ih]

theorem written_playLane (kit : DKit) (env : Env) (sound : Nat) (step : Int)
    (hfail : env.allocOk sound = false) : written (playLane kit env sound step) = [] := by
  unfold playLane
  cases sampleFor sound with
  | none => rfl
  | some p => simp [malloc, hfail, playSample, written]

theorem written_playLane_length (kit : DKit) (env : Env) (sound : Nat) (step : Int)
    (h : sound < numSounds) :
    (written (playLane kit env sound step)).length = if env.allocOk sound then 1 else 0 := by
  obtain ⟨⟨d, l⟩, hp⟩ := sampleFor_some sound h
  cases hok : env.allocOk sound <;> simp [playLane, hp, malloc, hok, playSample, written]

theorem written_lanes_length (kit : DKit) (env : Env) (step : Int) :
    ∀ lanes : List Nat, (∀ r ∈ lanes, r < numSounds) →
      (written (lanes.flatMap fun r => playLane kit env r step)).length
        = (lanes.filter env.allocOk).length := by
  intro lanes
  induction lanes with
  | nil => intro _; rfl
  | cons r rest ih =>
    intro h
    have hr := written_playLane_length kit env r step (h r (by simp))
    have hrest := ih (fun x hx => h x (by simp [hx]))
    rw [List.flatMap_cons, written_append, List.length_append, hr, hrest, List.filter_cons]
    cases env.allocOk r <;> simp
    omega

/-- The lane loop when no active lane left to visit stops the sequencer:
its actions are those of the active lanes, one lane after the other. -/
theorem soundLoop_noStop_trace (kit : DKit) (env : Env) (g : Grid) (cx cy c : Int)
    (hc : 0 ≤ c ∧ c < numSteps) :
    ∀ (remaining sound : Nat), sound + remaining ≤ numSounds →
      (∀ r, sound ≤ r → r < sound + remaining → isActive g c r = true →
        env.stopDuring r = false) →
      soundLoop kit env remaining sound ⟨g, cx, cy, true, c⟩
        = some (⟨g, cx, cy, true, c⟩,
            ((List.range' sound remaining).filter (isActive g c)).flatMap
              fun r => playLane kit env r c) := by
  intro remaining
  induction remaining with
  | zero => intro sound _ _; rfl
  | succ n ih =>
    intro sound hs hstay
    have hlt : sound < numSounds := by omega
    obtain ⟨v, hv⟩ := read_some g sound c ⟨by omega, by exact_mod_cast hlt⟩ hc
    have ht := ih (sound + 1) (by omega) (fun r h1 h2 => hstay r (by omega) (by omega))
    cases v with
    | false =>
      simp only [soundLoop, hv, ht, List.range'_succ, List.filter_cons]
      simp [isActive, hv]
    | true =>
      have hst : env.stopDuring sound = false :=
        hstay sound (by omega) (by omega) (by simp [isActive, hv])
      simp only [soundLoop, hv, runningAfter_eq env sound hlt, hst, List.range'_succ,
        List.filter_cons]
      simp [ht, isActive, hv]

/-- C13 (allocation failure).  When `malloc` fails, `playSample` writes the
line "Error allocating memory" and nothing else: no `i2s_write` at all.  In a
tick that runs to its end, a lane `k` whose allocation fails is announced,
called and skipped in this way, and the lanes after it are still dispatched:
the calls are those of all active lanes, and the writes are those of the
active lanes whose allocation succeeds. -/
theorem allocation_failure (kit : DKit) (env : Env) (s : State)
    (sampleData : Nat → Int) (sampleLength : Int)
    (hrun : s.isRunning = true)
    (hstep : 0 ≤ s.currentStep ∧ s.currentStep < 16)
    (hstay : ∀ r ∈ activeLanes s.soundSequences s.currentStep, env.stopDuring r = false)
    (k : Nat) (hk : k ∈ activeLanes s.soundSequences s.currentStep)
    (hfail : env.allocOk k = false) :
    malloc false (toSize (sampleLength * 2)) = none
      ∧ playSample none sampleData sampleLength = [Event.serial Line.errorAllocating]
      ∧ written (playSample none sampleData sampleLength) = []
      ∧ (∃ d l, sampleFor k = some (d, l)
          ∧ playLane kit env k s.currentStep
            = [Event.serial (Line.playing k s.currentStep), Event.playSample k d l,
                Event.serial Line.errorAllocating])
      ∧ ∃ s1 t, tick kit env s = some (s1, t)
          ∧ t = ((activeLanes s.soundSequences s.currentStep).flatMap
                  fun r => playLane kit env r s.currentStep)
                ++ [Event.delay 125, Event.serial (Line.currentStep s1.currentStep),
                  Event.printMatrix]
          ∧ dispatched t = activeLanes s.soundSequences s.currentStep
          ∧ (∀ r ∈ activeLanes s.soundSequences s.currentStep, k < r → r ∈ dispatched t)
          ∧ (written t).length
              = ((activeLanes s.soundSequences s.currentStep).filter env.allocOk).length := by
  obtain ⟨g, cx, cy, run, c⟩ := s
  simp only at hrun hstep hstay hk ⊢
  subst hrun
  have hc : 0 ≤ c ∧ c < (numSteps : Int) := by simpa [numSteps] using hstep
  have hk8 : k < numSounds := by
    simp only [activeLanes, List.mem_filter, List.mem_range] at hk
    exact hk.1
  have hnostop : ∀ r, 0 ≤ r → r < 0 + numSounds → isActive g c r = true →
      env.stopDuring r = false := fun r _ h2 h3 => hstay r (by
    simp only [activeLanes, List.mem_filter, List.mem_range]
    exact ⟨by omega, h3⟩)
  have hloop := soundLoop_noStop_trace kit env g cx cy c hc numSounds 0 (by omega) hnostop
  obtain ⟨t0, ht0, hd0, _, _⟩ :=
    soundLoop_noStop kit env g cx cy c hc numSounds 0 (by omega) hnostop
  have hrange : (List.range' 0 numSounds).filter (isActive g c) = activeLanes g c := by
    rw [← List.range_eq_range']; rfl
  rw [hrange] at hloop hd0
  have ht0eq : t0 = (activeLanes g c).flatMap fun r => playLane kit env r c := by
    rw [hloop] at ht0
    simp only [Option.some.injEq, Prod.mk.injEq, true_and] at ht0
    exact ht0.symm
  have htick := tick_eq_of_soundLoop kit env _ _ _ rfl hloop
  obtain ⟨⟨d, l⟩, hp⟩ := sampleFor_some k hk8
  refine ⟨by simp [malloc], rfl, rfl, ⟨d, l, hp, ?_⟩, _, _, htick, rfl, ?_, ?_, ?_⟩
  · simp [playLane, hp, malloc, hfail, playSample]
  · rw [dispatched_append, ← ht0eq, hd0]
    simp [dispatched]
  · intro r hr _
    rw [dispatched_append, ← ht0eq, hd0]
    simp [hr]
  · rw [written_append, List.length_append,
      written_lanes_length kit env c (activeLanes g c) (fun r hr => by
        simp only [activeLanes, List.mem_filter, List.mem_range] at hr
        exact hr.1)]
    simp [written]

theorem allocation_failure_witness :
    ∃ s1 t, tick exampleKit failingLaneThree exampleState = some (s1, t)
      ∧ dispatched t = [1, 3, 5] ∧ (written t).length = 2 := by
  obtain ⟨_, _, _, _, s1, t, h, _, hd, _, hw⟩ :=
    allocation_failure exampleKit failingLaneThree exampleState (fun _ => 0) 0 rfl (by decide)
      (fun _ _ => rfl) 3 (by decide) rfl
  exact ⟨s1, t, h, by rw [hd]; decide, by rw [hw]; decide⟩

/-- C16 (step advance survives cancellation).  In a tick that starts while
running on a step in `[0,16)`, if the sequencer is stopped during the
playback of active lane `k`, the lanes above `k` are not dispatched and the
tick still ends with `currentStep` equal to `(currentStep + 1) mod 16`, the
grid and the cursor as they were; the stopped pass that follows keeps that
step. -/
theorem step_advance_survives_cancellation (kit : DKit) (env env2 : Env) (s : State)
    (hrun : s.isRunning = true)
    (hstep : 0 ≤ s.currentStep ∧ s.currentStep < 16)
    (k : Nat) (hk : k ∈ activeLanes s.soundSequences s.currentStep)
    (hstop : env.stopDuring k = true)
    (hfirst : ∀ r ∈ activeLanes s.soundSequences s.currentStep, r < k →
      env.stopDuring r = false) :
    ∃ s1 t, tick kit env s = some (s1, t)
      ∧ s1 = { s with isRunning := false, currentStep := (s.currentStep + 1) % 16 }
      ∧ s1.currentStep = (s.currentStep + 1) % 16
      ∧ s1.isRunning = false
      ∧ dispatched t = (List.range (k + 1)).filter (isActive s.soundSequences s.currentStep)
      ∧ (∀ r ∈ dispatched t, r ≤ k)
      ∧ tick kit env2 s1 = some (s1, [Event.zeroDmaBuffer]) := by
  obtain ⟨g, cx, cy, run, c⟩ := s
  simp only at hrun hstep hk hstop hfirst ⊢
  subst hrun
  have hc : 0 ≤ c ∧ c < (numSteps : Int) := by simpa [numSteps] using hstep
  simp only [activeLanes, List.mem_filter, List.mem_range] at hk hfirst
  obtain ⟨t, ht, hd, hp, hf⟩ := soundLoop_stop kit env g cx cy c hc k hk.2 hstop numSounds 0
    (by omega) (by omega) (by omega) (fun r _ h2 h3 => hfirst r ⟨by omega, h3⟩ h2)
  have htick := tick_eq_of_soundLoop kit env _ _ t rfl ht
  have h1 : Int.tmod (c + 1) (numSteps : Int) = (c + 1) % 16 := by
    rw [Int.tmod_eq_emod (by omega) (by simp [numSteps])]
    simp [numSteps]
  simp only [h1] at htick
  have hd2 : dispatched t = (List.range (k + 1)).filter (isActive g c) := by
    rw [hd, List.range_eq_range']; rfl
  refine ⟨_, _, htick, rfl, rfl, rfl, ?_, ?_, by simp [tick]⟩
  · simpa [dispatched_append, dispatched] using hd2
  · intro r hr
    simp only [dispatched_append, dispatched, List.append_nil, hd2, List.mem_filter,
      List.mem_range] at hr
    omega

theorem step_advance_survives_cancellation_witness :
    ∃ s1 t, tick exampleKit stopDuringOne exampleState = some (s1, t)
      ∧ s1.currentStep = 3 ∧ s1.isRunning = false ∧ dispatched t = [1] := by
  obtain ⟨s1, t, h, hs, _, _, hd, _⟩ :=
    step_advance_survives_cancellation exampleKit stopDuringOne quietEnv exampleState rfl
      (by decide) 1 (by decide) rfl (by decide)
  exact ⟨s1, t, h, by rw [hs]; decide, by rw [hs], by rw [hd]; decide⟩

/-! ## The asset table -/

/-- C14 (asset pairing), evaluated at lane 2: the branch for `SNARE2_SOUND`
calls `playSample(snare3_DATA, snare4_NUM_CELLS)`, the data of one table with
the length of another, so the pairing of a table with its own length fails
for this lane. -/
theorem snare2_mismatch (kit : DKit) (env : Env) (step : Int) :
    sampleFor SNARE2_SOUND = some (Sample.snare3, Sample.snare4)
      ∧ Sample.snare3 ≠ Sample.snare4
      ∧ playLane kit env SNARE2_SOUND step
        = Event.serial (Line.playing SNARE2_SOUND step)
          :: Event.playSample SNARE2_SOUND Sample.snare3 Sample.snare4
          :: playSample (malloc (env.allocOk SNARE2_SOUND)
                (toSize (kit.NUM_CELLS Sample.snare4 * 2)))
              (kit.DATA Sample.snare3) (kit.NUM_CELLS Sample.snare4)
      ∧ ¬ (∀ sound, sound < numSounds →
            ∃ x, sampleFor sound = some (x, x)) := by
  refine ⟨rfl, by decide, rfl, ?_⟩
  intro h
  obtain ⟨x, hx⟩ := h 2 (by decide)
  have h2 : sampleFor 2 = some (Sample.snare3, Sample.snare4) := rfl
  rw [h2] at hx
  simp only [Option.some.injEq, Prod.mk.injEq] at hx
  obtain ⟨h3, h4⟩ := hx
  rw [← h3] at h4
  exact absurd h4 (by decide)

/-- C15 (the mismatch is confined to one lane).  Each of the eight lanes has
a branch; the lane is dispatched with the data of one table and the length of
another exactly when it is lane 2, which gets `snare3_DATA` with
`snare4_NUM_CELLS`; every other lane gets the data and the length of the same
table, and that is what its `playSample` call receives. -/
theorem mismatch_confined (kit : DKit) (env : Env) (step : Int) (sound : Fin numSounds) :
    ∃ data len, sampleFor sound.val = some (data, len)
      ∧ (data ≠ len ↔ sound.val = 2)
      ∧ (sound.val = 2 → data = Sample.snare3 ∧ len = Sample.snare4)
      ∧ (sound.val ≠ 2 → data = len)
      ∧ playLane kit env sound.val step
        = Event.serial (Line.playing sound.val step)
          :: Event.playSample sound.val data len
          :: playSample (malloc (env.allocOk sound.val) (toSize (kit.NUM_CELLS len * 2)))
              (kit.DATA data) (kit.NUM_CELLS len) := by
  obtain ⟨v, hv⟩ := sound
  unfold numSounds at hv
  interval_cases v
  all_goals (refine ⟨_, _, rfl, ?_, ?_, ?_, rfl⟩ <;> simp)

/-! ## From power-up to the second tick -/

theorem kickOnFirstStep_active0 : activeLanes kickOnFirstStep 0 = [0] := by decide

theorem kickOnFirstStep_active1 : activeLanes kickOnFirstStep 1 = [] := by decide

theorem loop_select_initial :
    loop_select true initialState
      = some ({ initialState with soundSequences := kickOnFirstStep },
          [Event.serial (Line.toggled 0 0 true), Event.printMatrix, Event.delay 200]) :=
  loop_select_eq initialState ⟨0, by decide⟩ ⟨0, by decide⟩ rfl rfl

/-- A tick on `kickOnFirstStep` that starts while running on step 0. -/
theorem tick_kick_step0 (kit : DKit) (env : Env) (cx cy : Int)
    (hstay : env.stopDuring 0 = false) :
    ∃ t, tick kit env ⟨kickOnFirstStep, cx, cy, true, 0⟩
        = some (⟨kickOnFirstStep, cx, cy, true, 1⟩, t) ∧ dispatched t = [0] := by
  obtain ⟨t, ht, hd, _, _⟩ := soundLoop_noStop kit env kickOnFirstStep cx cy 0 (by decide)
    numSounds 0 (by omega) (fun r _ h2 h3 => by
      have hr : r ∈ activeLanes kickOnFirstStep 0 := by
        simp only [activeLanes, List.mem_filter, List.mem_range]
        exact ⟨by omega, h3⟩
      rw [kickOnFirstStep_active0] at hr
      simp only [List.mem_singleton] at hr
      rw [hr]; exact hstay)
  have htick := tick_eq_of_soundLoop kit env _ _ t rfl ht
  refine ⟨_, htick, ?_⟩
  rw [dispatched_append, hd, ← List.range_eq_range']
  exact kickOnFirstStep_active0

/-- A tick on `kickOnFirstStep` that starts while running on step 1. -/
theorem tick_kick_step1 (kit : DKit) (env : Env) (cx cy : Int) :
    ∃ t, tick kit env ⟨kickOnFirstStep, cx, cy, true, 1⟩
        = some (⟨kickOnFirstStep, cx, cy, true, 2⟩, t) ∧ dispatched t = [] := by
  obtain ⟨t, ht, hd, _, _⟩ := soundLoop_noStop kit env kickOnFirstStep cx cy 1 (by decide)
    numSounds 0 (by omega) (fun r _ h2 h3 => by
      have hr : r ∈ activeLanes kickOnFirstStep 1 := by
        simp only [activeLanes, List.mem_filter, List.mem_range]
        exact ⟨by omega, h3⟩
      rw [kickOnFirstStep_active1] at hr
      simp at hr)
  have htick := tick_eq_of_soundLoop kit env _ _ t rfl ht
  refine ⟨_, htick, ?_⟩
  rw [dispatched_append, hd, ← List.range_eq_range']
  exact kickOnFirstStep_active1

/-- C12 (end-to-end scenario).  From the initial state (grid all off, cursor
on lane 0, step 0, stopped, `currentStep = 0`): select sets the cell of lane
0, step 0; start/stop sets the sequencer running with `currentStep` still 0;
the first tick calls `playSample` for lane 0 only and ends on step 1; the
second tick calls it for no lane and ends on step 2.  The same holds for the
three passes of `loop` in which these buttons are held in turn. -/
theorem end_to_end (kit : DKit) (env0 env1 env2 : Env)
    (hstay : env1.stopDuring 0 = false) :
    (∀ (a : Fin numSounds) (b : Fin numSteps), initialState.soundSequences a b = false)
      ∧ ∃ s1 t1 s3 t3 s4 t4,
        loop_select true initialState = some (s1, t1)
        ∧ (loop_startStop true s1).1.isRunning = true
        ∧ (loop_startStop true s1).1.currentStep = 0
        ∧ tick kit env1 (loop_startStop true s1).1 = some (s3, t3)
        ∧ dispatched t3 = [0] ∧ s3.currentStep = 1
        ∧ tick kit env2 s3 = some (s4, t4)
        ∧ dispatched t4 = [] ∧ s4.currentStep = 2
        ∧ ∃ t, run kit [(env0, selectOnly), (env1, startStopOnly), (env2, Buttons.none)]
              initialState = some (s4, t)
            ∧ dispatched t = [0] := by
  obtain ⟨t3, h3, d3⟩ := tick_kick_step0 kit env1 0 0 hstay
  obtain ⟨t4, h4, d4⟩ := tick_kick_step1 kit env2 0 0
  refine ⟨fun _ _ => rfl, _, _, _, t3, _, t4, loop_select_initial, rfl, rfl, h3, d3, rfl, h4, d4,
    rfl, ?_⟩
  have p1 := loop_of_buttons kit env0 selectOnly initialState
    { initialState with soundSequences := kickOnFirstStep }
    { initialState with soundSequences := kickOnFirstStep }
    [Event.serial (Line.toggled 0 0 true), Event.printMatrix, Event.delay 200]
    [Event.zeroDmaBuffer] rfl rfl
  have p2 := loop_of_buttons kit env1 startStopOnly
    { initialState with soundSequences := kickOnFirstStep }
    ⟨kickOnFirstStep, 0, 0, true, 0⟩ ⟨kickOnFirstStep, 0, 0, true, 1⟩
    [Event.serial (Line.sequencer true), Event.delay 200] t3 rfl h3
  have p3 := loop_of_buttons kit env2 Buttons.none ⟨kickOnFirstStep, 0, 0, true, 1⟩
    ⟨kickOnFirstStep, 0, 0, true, 1⟩ ⟨kickOnFirstStep, 0, 0, true, 2⟩ [] t4 rfl h4
  simp only [run, p1, p2, p3]
  exact ⟨_, rfl, by simp [dispatched_append, dispatched, d3, d4]⟩

theorem end_to_end_witness :
    ∃ s t, run exampleKit [(quietEnv, selectOnly), (quietEnv, startStopOnly),
          (quietEnv, Buttons.none)] initialState = some (s, t)
      ∧ dispatched t = [0] ∧ s.currentStep = 2 := by
  obtain ⟨_, _, _, _, _, s4, _, _, _, _, _, _, _, _, _, h2, t, hrun, hd⟩ :=
    end_to_end exampleKit quietEnv quietEnv quietEnv rfl
  exact ⟨s4, t, hrun, hd, h2⟩

end CajaDeRitmos
